import Mathlib

/-!
Verification of the Elsevier journal-scraper pipeline (JournalScraper.js and
its driver). JavaScript strings are embedded as `List Char`; JavaScript
runtime values that the scraper stores in record fields are embedded as
`JSVal`, which distinguishes `null`, `undefined`, `NaN`, finite numbers
(as rationals) and strings, since the code's fallback behaviour differs
between these. DOM access is embedded by giving each parsed document the
results of the fixed CSS queries the code performs.
-/

namespace Scraper

/-! Basic string helpers (JS string methods on `List Char`). -/

/-- Boolean test that `p` is a prefix of `s` (JS `String.startsWith`,
used to express substring search). -/
def strStartsWith : List Char → List Char → Bool
  | _, [] => true
  | [], _ :: _ => false
  | c :: cs, p :: ps => decide (c = p) && strStartsWith cs ps

/-- JS `String.includes`: `sub` occurs contiguously somewhere in `s`. -/
def strIncludes : List Char → List Char → Bool
  | [], sub => sub.isEmpty
  | c :: cs, sub => strStartsWith (c :: cs) sub || strIncludes cs sub

/-- Whitespace predicate for JS `String.trim` (the characters relevant to
scraped text content). -/
def isWS (c : Char) : Bool :=
  decide (c = ' ') || decide (c = '\t') || decide (c = '\n') || decide (c = '\r')

/-- JS `String.trim`: strip leading and trailing whitespace. -/
def trimStr (s : List Char) : List Char :=
  ((s.dropWhile isWS).reverse.dropWhile isWS).reverse

/-- JS `String.replace(pat, '')` with a plain-string pattern: delete the
first occurrence of `pat` (only the first — `replace` with a string
argument is not global). -/
def removeFirst (pat : List Char) : List Char → List Char
  | [] => []
  | c :: cs =>
    if strStartsWith (c :: cs) pat then (c :: cs).drop pat.length
    else c :: removeFirst pat cs

/-! JavaScript runtime values stored in scraped records. -/

/-- A JavaScript value as stored in a scraped record field: `null`,
`undefined` (from a short-circuited optional chain), `NaN` (from a failed
`parseFloat`), a finite number (embedded as a rational) or a string. -/
inductive JSVal where
  | null
  | undefined
  | nan
  | num (q : ℚ)
  | str (s : List Char)
  deriving DecidableEq

/-- Numeric value of a digit string, most significant first. -/
def natOfDigits (ds : List Char) : Nat :=
  ds.foldl (fun n c => 10 * n + (c.toNat - 48)) 0

/-- JS `parseFloat` on a string, restricted to plain decimal notation
(optional leading whitespace, optional sign, digits with an optional
fractional part): the longest such prefix is parsed; if there is no digit
in it the result is `NaN`. This covers every string the scraper feeds to
`parseFloat`. -/
def parseFloatCore (s : List Char) : JSVal :=
  let t := s.dropWhile isWS
  let signAndRest : ℚ × List Char :=
    match t with
    | '-' :: r => (-1, r)
    | '+' :: r => (1, r)
    | _ => (1, t)
  let intPart := signAndRest.2.takeWhile Char.isDigit
  let rest := signAndRest.2.dropWhile Char.isDigit
  let fracPart : List Char :=
    match rest with
    | '.' :: r => r.takeWhile Char.isDigit
    | _ => []
  if intPart.isEmpty && fracPart.isEmpty then JSVal.nan
  else
    JSVal.num (signAndRest.1 *
      ((natOfDigits intPart : ℚ) + (natOfDigits fracPart : ℚ) / (10 ^ fracPart.length)))

/-! DOM model: each document is given by the results of the fixed CSS
queries the scraper runs against it. An absent element is `none`, matching
`querySelector` returning `null`. The parse of an empty response body
(`new JSDOM('')`) has no matching elements at all. -/

/-- A DOM element, reduced to the only property the scraper reads. -/
structure Element where
  textContent : List Char
  deriving DecidableEq

/-- One `.metric-box` element: its full text and the result of
`querySelector('.text-xl')` inside it. -/
structure MetricBox where
  textContent : List Char
  textXl : Option Element
  deriving DecidableEq

/-- One `.row.gutters.hor-line.u-padding-l-ver` element: the results of
`querySelector('h3')` and `querySelector('.col-lg-17.col-xs-24.text-s')`
inside it. -/
structure RowDiv where
  h3 : Option Element
  valueCell : Option Element
  deriving DecidableEq

/-- The insights page, as the results of the queries `parseInsightsPage`
performs: `.metric-box` (all), `.row.gutters.hor-line.u-padding-l-ver`
(all), `.col-lg-17.col-xs-24 .u-display-inline` (first),
`.list-price-without-waiver .text-xl` (first), `.abstracts-and-indexing li`
(all). -/
structure InsightsDoc where
  metricBoxes : List MetricBox
  rowDivs : List RowDiv
  issnElem : Option Element
  priceElem : Option Element
  indexingItems : List Element
  deriving DecidableEq

/-- The parse of an empty body: no element matches any selector. -/
def emptyInsightsDoc : InsightsDoc :=
  { metricBoxes := [], rowDivs := [], issnElem := none, priceElem := none,
    indexingItems := [] }

/-- The aims-and-scope page, as the result of the single query
`querySelector('.js-aims-and-scope')`. -/
structure AimsDoc where
  aimsSection : Option Element
  deriving DecidableEq

/-- A JavaScript exception escaping an extraction. `typeError` is a
property access on `null`/`undefined`. -/
inductive JSErr where
  | typeError
  deriving DecidableEq

/-! The page extractor (`parseInsightsPage` and its helpers). -/

/-- Inner helper `getMetricValue` of `parseInsightsPage`: find the first
`.metric-box` whose text contains `label`; if none, `null`; otherwise read
`.querySelector('.text-xl').textContent` — the source has no optional
chain here, so a matching box without a `.text-xl` child raises a
`TypeError` — and `parseFloat` it. -/
def getMetricValue (doc : InsightsDoc) (label : List Char) : Except JSErr JSVal :=
  match doc.metricBoxes.find? (fun box => strIncludes box.textContent label) with
  | none => Except.ok JSVal.null
  | some box =>
    match box.textXl with
    | none => Except.error JSErr.typeError
    | some e => Except.ok (parseFloatCore e.textContent)

/-- The find predicate for the subject-areas row:
`div.querySelector('h3')?.textContent.trim() === 'Subject areas'` (a row
without an `h3` compares `undefined` to the label, hence `false`). -/
def subjAreaPred (d : RowDiv) : Bool :=
  match d.h3 with
  | some h => decide (trimStr h.textContent = "Subject areas".toList)
  | none => false

/-- The subject-areas extraction of `parseInsightsPage`: `'N/A'` when no
row matches; otherwise the trimmed text of the value cell, or `undefined`
when the matching row has no value cell (optional chain). -/
def subjectAreasValue (rowDivs : List RowDiv) : JSVal :=
  match rowDivs.find? subjAreaPred with
  | none => JSVal.str "N/A".toList
  | some d =>
    match d.valueCell with
    | none => JSVal.undefined
    | some c => JSVal.str (trimStr c.textContent)

/-- The APC extraction of `parseInsightsPage`:
`parseFloat(elem?.textContent.replace('$', '').replace(',', ''))`. When the
price element is absent the optional chain yields `undefined` and
`parseFloat(undefined)` is `NaN` (the string `"undefined"` has no numeric
prefix). -/
def apcValue (priceElem : Option Element) : JSVal :=
  match priceElem with
  | none => JSVal.nan
  | some e => parseFloatCore (removeFirst ",".toList (removeFirst "$".toList e.textContent))

/-- JS `Array.join(', ')`. -/
def joinCommaSpace : List (List Char) → List Char
  | [] => []
  | [s] => s
  | s :: rest => s ++ ',' :: ' ' :: joinCommaSpace rest

/-- The fields `parseInsightsPage` returns. -/
structure InsightsData where
  issn : JSVal
  subject_areas : JSVal
  cite_score : JSVal
  apc : JSVal
  time_to_first_decision : JSVal
  review_time : JSVal
  submission_to_acceptance : JSVal
  acceptance_to_publication : JSVal
  impact_factor : JSVal
  acceptance_rate : JSVal
  abstracting_indexing : JSVal
  deriving DecidableEq

/-- The whole of `parseInsightsPage`, field expressions evaluated in
source order; a `TypeError` raised by `getMetricValue` aborts the page. -/
def parseInsightsPage (doc : InsightsDoc) : Except JSErr InsightsData := do
  let subject_areas := subjectAreasValue doc.rowDivs
  let issn : JSVal :=
    match doc.issnElem with
    | none => JSVal.undefined
    | some e => JSVal.str (trimStr e.textContent)
  let cite_score ← getMetricValue doc "CiteScore".toList
  let apc := apcValue doc.priceElem
  let ttfd ← getMetricValue doc "Time to first decision".toList
  let review_time ← getMetricValue doc "Review time".toList
  let sta ← getMetricValue doc "Submission to acceptance".toList
  let atp ← getMetricValue doc "Acceptance to publication".toList
  let impact_factor ← getMetricValue doc "Impact Factor".toList
  let acceptance_rate ← getMetricValue doc "Acceptance Rate".toList
  let abstracting_indexing :=
    JSVal.str (joinCommaSpace (doc.indexingItems.map (fun li => trimStr li.textContent)))
  return { issn := issn, subject_areas := subject_areas, cite_score := cite_score,
           apc := apc, time_to_first_decision := ttfd, review_time := review_time,
           submission_to_acceptance := sta, acceptance_to_publication := atp,
           impact_factor := impact_factor, acceptance_rate := acceptance_rate,
           abstracting_indexing := abstracting_indexing }

/-! The resilient fetcher (`fetchWithRetry`). The HTTP environment is a
schedule assigning each attempt index its outcome; the key pool is given
by its size and the current index; besides the returned response we record
the trace of attempts, key switches and backoff delays the loop performs. -/

/-- Outcome of one proxied request: a successful response with a body, an
HTTP error status carried by `error.response`, or a network-level failure
with no response. -/
inductive Outcome where
  | success (body : List Char)
  | http (status : Nat)
  | netError
  deriving DecidableEq

/-- Observable event of the retry loop: an attempt with its index and the
key index it uses, a rotation to a new key index, or a `setTimeout` delay
in milliseconds. -/
inductive FetchEvent where
  | attempt (i keyIdx : Nat)
  | switchKey (newIdx : Nat)
  | delay (ms : Nat)
  deriving DecidableEq

/-- The value `fetchWithRetry` resolves with: `ok` and the body
`text()` yields. -/
structure FetchResult where
  ok : Bool
  text : List Char
  deriving DecidableEq

/-- The sentinel failed response `{ ok: false, text: async () => '' }`. -/
def sentinelResponse : FetchResult := { ok := false, text := [] }

/-- The retry loop of `fetchWithRetry`, from loop counter `i` with `fuel`
iterations left (the loop runs `retries` iterations, so `fuel` is
`retries - i`). Status 401/403 rotates the key index modulo the pool size
and goes straight to the next iteration; 429/500 sleeps `1000 * 2 ^ i`
milliseconds and retries with the same key; any other status returns the
sentinel on the final iteration and otherwise falls through with no delay;
a network error sleeps the same backoff and retries. Returns the result,
the final key index, and the event trace. -/
def fetchAux (sched : Nat → Outcome) (numKeys retries : Nat) :
    Nat → Nat → Nat → FetchResult × Nat × List FetchEvent
  | keyIdx, _, 0 => (sentinelResponse, keyIdx, [])
  | keyIdx, i, fuel + 1 =>
    match sched i with
    | Outcome.success body => (⟨true, body⟩, keyIdx, [FetchEvent.attempt i keyIdx])
    | Outcome.http status =>
      if status = 401 ∨ status = 403 then
        let next := fetchAux sched numKeys retries ((keyIdx + 1) % numKeys) (i + 1) fuel
        (next.1, next.2.1,
         FetchEvent.attempt i keyIdx :: FetchEvent.switchKey ((keyIdx + 1) % numKeys) :: next.2.2)
      else if status = 429 ∨ status = 500 then
        let next := fetchAux sched numKeys retries keyIdx (i + 1) fuel
        (next.1, next.2.1,
         FetchEvent.attempt i keyIdx :: FetchEvent.delay (1000 * 2 ^ i) :: next.2.2)
      else
        if i = retries - 1 then (sentinelResponse, keyIdx, [FetchEvent.attempt i keyIdx])
        else
          let next := fetchAux sched numKeys retries keyIdx (i + 1) fuel
          (next.1, next.2.1, FetchEvent.attempt i keyIdx :: next.2.2)
    | Outcome.netError =>
      let next := fetchAux sched numKeys retries keyIdx (i + 1) fuel
      (next.1, next.2.1,
       FetchEvent.attempt i keyIdx :: FetchEvent.delay (1000 * 2 ^ i) :: next.2.2)

/-- `fetchWithRetry(url, options, retries)` starting from key index
`keyIdx`: run the loop from `i = 0`; if the loop completes without a
successful response the function returns the sentinel failed response
(never raising — every error path is inside the loop's catch). -/
def fetchWithRetry (sched : Nat → Outcome) (numKeys retries keyIdx : Nat) :
    FetchResult × Nat × List FetchEvent :=
  fetchAux sched numKeys retries keyIdx 0 retries

/-! Journal-title extraction: `shopUrl.match(/journals\/([^\/]+)/)`. The
regex engine returns the leftmost match: the first position where the
literal `journals/` is followed by at least one non-`/` character, the
greedy `[^\/]+` then taking the maximal run of non-`/` characters. -/

/-- The literal part of the pattern. -/
def journalsPat : List Char := "journals/".toList

/-- Try the pattern at the current position: `journals/` must start here
and be followed by a nonempty run of non-`/` characters, which is the
captured group. -/
def matchTitleAt (s : List Char) : Option (List Char) :=
  if strStartsWith s journalsPat then
    match (s.drop journalsPat.length).takeWhile (fun c => decide (c ≠ '/')) with
    | [] => none
    | c :: cs => some (c :: cs)
  else none

/-- Leftmost-match search: try the pattern at each successive start
position. -/
def scanForTitle : List Char → Option (List Char)
  | [] => none
  | c :: cs =>
    match matchTitleAt (c :: cs) with
    | some t => some t
    | none => scanForTitle cs

/-- `extractJournalTitleFromUrl`: the captured group of the match, or
`null` when the pattern matches nowhere. -/
def extractJournalTitleFromUrl (shopUrl : List Char) : Option (List Char) :=
  scanForTitle shopUrl

/-- Specification-side predicate: position `i` of `s` starts an occurrence
of `journals/` followed by at least one non-`/` character. -/
def qualAt (s : List Char) (i : Nat) : Bool :=
  strStartsWith (s.drop i) journalsPat &&
    (match (s.drop (i + journalsPat.length)).head? with
     | some c => decide (c ≠ '/')
     | none => false)

/-- `buildScienceDirectUrl`. -/
def buildScienceDirectUrl (journalTitle endPt : List Char) : List Char :=
  "https://www.sciencedirect.com/journal/".toList ++ journalTitle ++ '/' :: endPt

/-! The record assembler (`getAimsAndScope`, `scrapeJournalData`). A fetch
outcome for a sub-page is the `ok` flag of the resolved response together
with the JSDOM parse of its body; a sentinel failed response has an empty
body, which parses to a document with no matching elements. -/

/-- Resolved fetch of the aims-and-scope sub-page. -/
structure AimsFetch where
  ok : Bool
  doc : AimsDoc
  deriving DecidableEq

/-- Resolved fetch of the insights sub-page. -/
structure InsightsFetch where
  ok : Bool
  doc : InsightsDoc
  deriving DecidableEq

/-- `getAimsAndScope`: on a failed fetch skip the field (`null`);
otherwise the trimmed text of the `.js-aims-and-scope` section, or `null`
when absent. -/
def getAimsAndScope (resp : AimsFetch) : JSVal :=
  if resp.ok then
    match resp.doc.aimsSection with
    | some e => JSVal.str (trimStr e.textContent)
    | none => JSVal.null
  else JSVal.null

/-- The error channel of `scrapeJournalData`: the explicit
`throw new Error('Could not extract journal title from URL')`, or a
JavaScript exception propagating out of page parsing. -/
inductive ScrapeError where
  | missingTitle
  | js (e : JSErr)
  deriving DecidableEq

/-- The assembled record (the object literal of `scrapeJournalData`). -/
structure JournalRecord where
  journal_title : List Char
  aims_and_scope : JSVal
  issn : JSVal
  subject_areas : JSVal
  cite_score : JSVal
  apc : JSVal
  time_to_first_decision : JSVal
  review_time : JSVal
  submission_to_acceptance : JSVal
  acceptance_to_publication : JSVal
  impact_factor : JSVal
  acceptance_rate : JSVal
  abstracting_indexing : JSVal
  shop_url : List Char
  sciencedirect_url : List Char
  deriving DecidableEq

/-- `scrapeJournalData`: extract the title (throwing `missingTitle` when
the URL does not match), build the insights URL, take the aims-and-scope
result, parse the insights sub-page — its body is parsed even when the
fetch failed, the sentinel's empty body giving the empty document — and
assemble the record. -/
def scrapeJournalData (shopUrl : List Char) (aims : AimsFetch)
    (insights : InsightsFetch) : Except ScrapeError JournalRecord := do
  let journalTitle ←
    match extractJournalTitleFromUrl shopUrl with
    | none => Except.error ScrapeError.missingTitle
    | some t => Except.ok t
  let scienceDirectUrl := buildScienceDirectUrl journalTitle "about/insights".toList
  let aimsAndScope := getAimsAndScope aims
  let d ← (parseInsightsPage insights.doc).mapError ScrapeError.js
  return { journal_title := journalTitle, aims_and_scope := aimsAndScope,
           issn := d.issn, subject_areas := d.subject_areas,
           cite_score := d.cite_score, apc := d.apc,
           time_to_first_decision := d.time_to_first_decision,
           review_time := d.review_time,
           submission_to_acceptance := d.submission_to_acceptance,
           acceptance_to_publication := d.acceptance_to_publication,
           impact_factor := d.impact_factor, acceptance_rate := d.acceptance_rate,
           abstracting_indexing := d.abstracting_indexing,
           shop_url := shopUrl, sciencedirect_url := scienceDirectUrl }

/-! The dedup store (`saveJournalData` over the `journal_details` table).
The table is a list of rows with their ids plus the next auto-increment
id; `db.get` returns the first row matching the title. -/

/-- The store state. -/
structure DB where
  rows : List (Nat × JournalRecord)
  nextId : Nat
  deriving DecidableEq

/-- The `SELECT id FROM journal_details WHERE journal_title = ?` lookup. -/
def dbFindByTitle (db : DB) (t : List Char) : Option (Nat × JournalRecord) :=
  db.rows.find? (fun r => decide (r.2.journal_title = t))

/-- `saveJournalData`: look the title up; if present resolve with the
existing id and leave the store untouched; otherwise insert the record as
a new row with the next auto-increment id and resolve with that id. -/
def saveJournalData (db : DB) (data : JournalRecord) : Nat × DB :=
  match dbFindByTitle db data.journal_title with
  | some r => (r.1, db)
  | none => (db.nextId, ⟨db.rows ++ [(db.nextId, data)], db.nextId + 1⟩)

/-! The per-journal driver loop (the `for (const journal of ...)` body of
the catalog crawl): each journal is scraped and saved inside a try/catch
whose catch logs and continues with the next journal. The environment maps
each shop URL to its two sub-page fetch outcomes. -/

/-- Process a list of shop URLs in order; a journal whose scrape throws
contributes `none` and processing continues with the next journal from the
same store state. -/
def processAll (env : List Char → AimsFetch × InsightsFetch) (db : DB) :
    List (List Char) → DB × List (Option Nat)
  | [] => (db, [])
  | u :: us =>
    match scrapeJournalData u (env u).1 (env u).2 with
    | Except.error _ =>
      let rest := processAll env db us
      (rest.1, none :: rest.2)
    | Except.ok rcd =>
      let saved := saveJournalData db rcd
      let rest := processAll env saved.2 us
      (rest.1, some saved.1 :: rest.2)

/-! General list lemmas used below. -/

/-- Appending past an unsuccessful search continues the search. -/
theorem find?_append_of_none {α} (p : α → Bool) (l1 l2 : List α)
    (h : l1.find? p = none) : (l1 ++ l2).find? p = l2.find? p := by
  rw [List.find?_append, h, Option.none_or]

/-! Claims about the resilient fetcher. -/

/-- Helper for claim C2: as long as no scheduled attempt succeeds, the
loop ends with the sentinel response. -/
theorem fetchAux_no_success_sentinel (sched : Nat → Outcome) (numKeys retries : Nat) :
    ∀ fuel i keyIdx, (∀ j, i ≤ j → j < i + fuel → ∀ b, sched j ≠ Outcome.success b) →
    (fetchAux sched numKeys retries keyIdx i fuel).1 = sentinelResponse := by
  intro fuel
  induction fuel with
  | zero => intro i k _; rfl
  | succ n ih =>
    intro i k h
    cases hs : sched i with
    | success b => exact absurd hs (h i le_rfl (by omega) b)
    | http s =>
      simp only [fetchAux, hs]
      split
      · simpa using ih (i + 1) _ (fun j hj1 hj2 => h j (by omega) (by omega))
      · split
        · simpa using ih (i + 1) _ (fun j hj1 hj2 => h j (by omega) (by omega))
        · split
          · rfl
          · simpa using ih (i + 1) _ (fun j hj1 hj2 => h j (by omega) (by omega))
    | netError =>
      simp only [fetchAux, hs]
      simpa using ih (i + 1) _ (fun j hj1 hj2 => h j (by omega) (by omega))

/-- Claim C1: each attempt of `fetchWithRetry` classifies an HTTP failure
by status: a 401 or 403 rotates to the next credential and proceeds to the
next attempt immediately, with no delay event; a 429 or 500 keeps the same
key index and emits a delay of `1000 * 2 ^ attempt` milliseconds before
the next attempt; and in the concrete scenario of 429 responses on
attempts 1 and 2 and a 200 on attempt 3, the fetch succeeds with delays of
1000 ms and 2000 ms before attempts 2 and 3. -/
theorem fetch_classifies_status_and_backs_off :
    (∀ (sched : Nat → Outcome) (numKeys retries keyIdx i fuel : Nat),
      (sched i = Outcome.http 401 ∨ sched i = Outcome.http 403) →
      fetchAux sched numKeys retries keyIdx i (fuel + 1) =
        ((fetchAux sched numKeys retries ((keyIdx + 1) % numKeys) (i + 1) fuel).1,
         (fetchAux sched numKeys retries ((keyIdx + 1) % numKeys) (i + 1) fuel).2.1,
         FetchEvent.attempt i keyIdx :: FetchEvent.switchKey ((keyIdx + 1) % numKeys) ::
           (fetchAux sched numKeys retries ((keyIdx + 1) % numKeys) (i + 1) fuel).2.2)) ∧
    (∀ (sched : Nat → Outcome) (numKeys retries keyIdx i fuel : Nat),
      (sched i = Outcome.http 429 ∨ sched i = Outcome.http 500) →
      fetchAux sched numKeys retries keyIdx i (fuel + 1) =
        ((fetchAux sched numKeys retries keyIdx (i + 1) fuel).1,
         (fetchAux sched numKeys retries keyIdx (i + 1) fuel).2.1,
         FetchEvent.attempt i keyIdx :: FetchEvent.delay (1000 * 2 ^ i) ::
           (fetchAux sched numKeys retries keyIdx (i + 1) fuel).2.2)) ∧
    fetchWithRetry (fun i => if i < 2 then Outcome.http 429 else Outcome.success "PAGE".toList)
        1 3 0 =
      (⟨true, "PAGE".toList⟩, 0,
       [FetchEvent.attempt 0 0, FetchEvent.delay 1000, FetchEvent.attempt 1 0,
        FetchEvent.delay 2000, FetchEvent.attempt 2 0]) := by
  refine ⟨?_, ?_, ?_⟩
  · intro sched numKeys retries keyIdx i fuel h
    rcases h with h | h <;> simp [fetchAux, h]
  · intro sched numKeys retries keyIdx i fuel h
    rcases h with h | h <;> simp [fetchAux, h]
  · decide

/-- Witness for claim C1 at concrete inputs: a 403 on the only remaining
attempt rotates from key 0 to key 1 with no delay; a 429 keeps key 0 and
delays 1000 ms. -/
theorem fetch_classifies_status_and_backs_off_witness :
    fetchAux (fun _ => Outcome.http 403) 2 3 0 0 1 =
      ((fetchAux (fun _ => Outcome.http 403) 2 3 1 1 0).1,
       (fetchAux (fun _ => Outcome.http 403) 2 3 1 1 0).2.1,
       FetchEvent.attempt 0 0 :: FetchEvent.switchKey 1 ::
         (fetchAux (fun _ => Outcome.http 403) 2 3 1 1 0).2.2) ∧
    fetchAux (fun _ => Outcome.http 429) 2 3 0 0 1 =
      ((fetchAux (fun _ => Outcome.http 429) 2 3 0 1 0).1,
       (fetchAux (fun _ => Outcome.http 429) 2 3 0 1 0).2.1,
       FetchEvent.attempt 0 0 :: FetchEvent.delay 1000 ::
         (fetchAux (fun _ => Outcome.http 429) 2 3 0 1 0).2.2) :=
  ⟨fetch_classifies_status_and_backs_off.1 (fun _ => Outcome.http 403) 2 3 0 0 0 (Or.inr rfl),
   fetch_classifies_status_and_backs_off.2.1 (fun _ => Outcome.http 429) 2 3 0 0 0 (Or.inl rfl)⟩

/-- Claim C2: when no attempt of the budget gets a successful response —
in particular when every attempt fails with an unclassified status such
as 404 — `fetchWithRetry` returns the sentinel response with `ok = false`
and an empty body instead of raising (the embedding is a total function:
every error path of the source is inside the loop's catch). -/
theorem fetch_exhausted_returns_sentinel (sched : Nat → Outcome)
    (numKeys retries keyIdx : Nat)
    (h : ∀ i, i < retries → ∀ b, sched i ≠ Outcome.success b) :
    (fetchWithRetry sched numKeys retries keyIdx).1 = sentinelResponse :=
  fetchAux_no_success_sentinel sched numKeys retries retries 0 keyIdx
    (fun j _ hj => h j (by omega))

/-- Witness for claim C2: three attempts all answered 404 yield the
sentinel response. -/
theorem fetch_exhausted_returns_sentinel_witness :
    (fetchWithRetry (fun _ => Outcome.http 404) 1 3 0).1 = sentinelResponse :=
  fetch_exhausted_returns_sentinel (fun _ => Outcome.http 404) 1 3 0
    (fun _ _ _ hb => Outcome.noConfusion hb)

/-! Claim about the dedup store. -/

/-- After a save, the saved title is found under the id the save
returned (the row stored under it is the incoming record when the title
was new, and the pre-existing record otherwise). -/
theorem dbFindByTitle_after_save (db : DB) (r1 : JournalRecord) :
    ∃ stored, dbFindByTitle (saveJournalData db r1).2 r1.journal_title =
      some ((saveJournalData db r1).1, stored) := by
  rcases hf : dbFindByTitle db r1.journal_title with _ | p
  · refine ⟨r1, ?_⟩
    simp only [saveJournalData, hf]
    unfold dbFindByTitle at hf ⊢
    rw [find?_append_of_none _ _ _ hf]
    simp [List.find?]
  · exact ⟨p.2, by simp [saveJournalData, hf]⟩

/-- A lookup result survives any later save. -/
theorem dbFindByTitle_save_preserved (d : DB) (m : JournalRecord)
    (t : List Char) (p : Nat × JournalRecord)
    (h : dbFindByTitle d t = some p) :
    dbFindByTitle (saveJournalData d m).2 t = some p := by
  rcases hf : dbFindByTitle d m.journal_title with _ | q
  · simp only [saveJournalData, hf]
    unfold dbFindByTitle at h ⊢
    rw [List.find?_append, h]
    rfl
  · simpa [saveJournalData, hf] using h

/-- Claim C4: in any sequential call sequence, a second save of a record
bearing the same `journal_title` — with arbitrary other saves in
between — returns the id of the first save and leaves the store exactly
as it was: no second row for that title and no change to the first
stored record's fields. -/
theorem save_same_title_twice_same_id (db : DB) (r1 r2 : JournalRecord)
    (mids : List JournalRecord) (h : r2.journal_title = r1.journal_title) :
    saveJournalData
        (List.foldl (fun d m => (saveJournalData d m).2) (saveJournalData db r1).2 mids) r2 =
      ((saveJournalData db r1).1,
       List.foldl (fun d m => (saveJournalData d m).2) (saveJournalData db r1).2 mids) := by
  obtain ⟨stored0, hbase⟩ := dbFindByTitle_after_save db r1
  have pres : ∀ (ms : List JournalRecord) (d : DB) (idv : Nat) (st : JournalRecord),
      dbFindByTitle d r1.journal_title = some (idv, st) →
      ∃ st2, dbFindByTitle (List.foldl (fun d m => (saveJournalData d m).2) d ms)
        r1.journal_title = some (idv, st2) := by
    intro ms
    induction ms with
    | nil => intro d idv st hd; exact ⟨st, hd⟩
    | cons m ms ih =>
      intro d idv st hd
      have hstep := dbFindByTitle_save_preserved d m r1.journal_title (idv, st) hd
      simpa [List.foldl] using ih (saveJournalData d m).2 idv st hstep
  obtain ⟨stN, hN⟩ :=
    pres mids (saveJournalData db r1).2 (saveJournalData db r1).1 stored0 hbase
  set dbn : DB :=
    List.foldl (fun d m => (saveJournalData d m).2) (saveJournalData db r1).2 mids with hdbn
  set id1 : Nat := (saveJournalData db r1).1 with hid1
  have h2 : dbFindByTitle dbn r2.journal_title = some (id1, stN) := by
    rw [h]; exact hN
  show saveJournalData dbn r2 = (id1, dbn)
  simp [saveJournalData, h2]

/-- A concrete assembled record used by witnesses and counterexamples. -/
def sampleRecord : JournalRecord :=
  { journal_title := "foo-journal".toList, aims_and_scope := JSVal.null,
    issn := JSVal.undefined, subject_areas := JSVal.str "N/A".toList,
    cite_score := JSVal.null, apc := JSVal.nan,
    time_to_first_decision := JSVal.null, review_time := JSVal.null,
    submission_to_acceptance := JSVal.null, acceptance_to_publication := JSVal.null,
    impact_factor := JSVal.null, acceptance_rate := JSVal.null,
    abstracting_indexing := JSVal.str [],
    shop_url := "https://shop.elsevier.com/journals/foo-journal/desc".toList,
    sciencedirect_url :=
      "https://www.sciencedirect.com/journal/foo-journal/about/insights".toList }

/-- A second concrete record with another title, saved in between. -/
def otherRecord : JournalRecord :=
  { sampleRecord with
    journal_title := "bar-journal".toList,
    shop_url := "https://shop.elsevier.com/journals/bar-journal/desc".toList,
    sciencedirect_url :=
      "https://www.sciencedirect.com/journal/bar-journal/about/insights".toList }

/-- Witness for claim C4: saving the same record again after an unrelated
save returns the first id and leaves the store untouched. -/
theorem save_same_title_twice_same_id_witness :
    saveJournalData
        (List.foldl (fun d m => (saveJournalData d m).2)
          (saveJournalData ⟨[], 1⟩ sampleRecord).2 [otherRecord]) sampleRecord =
      ((saveJournalData ⟨[], 1⟩ sampleRecord).1,
       List.foldl (fun d m => (saveJournalData d m).2)
         (saveJournalData ⟨[], 1⟩ sampleRecord).2 [otherRecord]) :=
  save_same_title_twice_same_id ⟨[], 1⟩ sampleRecord sampleRecord [otherRecord] rfl

/-! Claims about the page extractor. -/

/-- An insights page with a metric box that contains the label text but
has no emphasized `.text-xl` child element. -/
def badBoxDoc : InsightsDoc :=
  { emptyInsightsDoc with metricBoxes := [⟨"CiteScore".toList, none⟩] }

/-- Claim C5 (evaluation at the failing input): on a page whose
`CiteScore` metric box lacks the `.text-xl` child, `parseInsightsPage`
raises a `TypeError` and aborts the whole page, contradicting the
per-field fault-tolerance the specification states. -/
theorem parse_insights_throws_on_bad_box :
    parseInsightsPage badBoxDoc = Except.error JSErr.typeError := by rfl

/-- An insights page whose `CiteScore` box carries non-numeric emphasized
text. -/
def unparseableBoxDoc : InsightsDoc :=
  { emptyInsightsDoc with
    metricBoxes := [⟨"CiteScore N/A".toList, some ⟨"N/A".toList⟩⟩] }

/-- Counterexample to claim C6: on a page whose matching metric box has
emphasized text `"N/A"`, `getMetricValue` returns `NaN`, not `null`. -/
theorem metric_value_unparseable_is_nan_not_null :
    getMetricValue unparseableBoxDoc "CiteScore".toList = Except.ok JSVal.nan ∧
    JSVal.nan ≠ JSVal.null := by
  exact ⟨rfl, by decide⟩

/-- Claim C6 as amended: `getMetricValue` returns `null` (without
throwing) when no metric box contains the label; when a matching box has
an emphasized element with unparseable text it returns `NaN` rather than
`null`; and when a matching box has no emphasized element at all it
throws a `TypeError`. -/
theorem metric_value_lookup_cases : ∀ (doc : InsightsDoc) (label : List Char),
    (doc.metricBoxes.find? (fun box => strIncludes box.textContent label) = none →
      getMetricValue doc label = Except.ok JSVal.null) ∧
    (∀ b e, doc.metricBoxes.find? (fun box => strIncludes box.textContent label) = some b →
      b.textXl = some e → parseFloatCore e.textContent = JSVal.nan →
      getMetricValue doc label = Except.ok JSVal.nan) ∧
    (∀ b, doc.metricBoxes.find? (fun box => strIncludes box.textContent label) = some b →
      b.textXl = none → getMetricValue doc label = Except.error JSErr.typeError) := by
  intro doc label
  refine ⟨fun h => ?_, fun b e hb he hp => ?_, fun b hb he => ?_⟩
  · simp [getMetricValue, h]
  · simp [getMetricValue, hb, he, hp]
  · simp [getMetricValue, hb, he]

/-- Witness for claim C6 as amended, at concrete pages: the empty page
(no box) yields `null`; the `"N/A"` box yields `NaN`; the box without an
emphasized child throws. -/
theorem metric_value_lookup_cases_witness :
    getMetricValue emptyInsightsDoc "CiteScore".toList = Except.ok JSVal.null ∧
    getMetricValue unparseableBoxDoc "CiteScore".toList = Except.ok JSVal.nan ∧
    getMetricValue badBoxDoc "CiteScore".toList = Except.error JSErr.typeError :=
  ⟨(metric_value_lookup_cases emptyInsightsDoc "CiteScore".toList).1 rfl,
   (metric_value_lookup_cases unparseableBoxDoc "CiteScore".toList).2.1
     ⟨"CiteScore N/A".toList, some ⟨"N/A".toList⟩⟩ ⟨"N/A".toList⟩ rfl rfl rfl,
   (metric_value_lookup_cases badBoxDoc "CiteScore".toList).2.2
     ⟨"CiteScore".toList, none⟩ rfl rfl⟩

/-- Counterexample to claim C7: APC text `"N/A"` yields `NaN`, not
`null`. -/
theorem apc_unparseable_is_nan_not_null :
    apcValue (some ⟨"N/A".toList⟩) = JSVal.nan ∧ JSVal.nan ≠ JSVal.null := by
  exact ⟨rfl, by decide⟩

/-- Claim C7 as amended: APC extraction strips `$` and the first `,` and
parses as float — `"$1,234.50"` yields `1234.5` — but the unparseable
input `"N/A"` yields `NaN` (not `null`), and an absent price element also
yields `NaN` (`parseFloat` of an `undefined` optional chain). -/
theorem apc_parsing_behaviour :
    apcValue (some ⟨"$1,234.50".toList⟩) = JSVal.num (2469 / 2) ∧
    apcValue (some ⟨"N/A".toList⟩) = JSVal.nan ∧
    apcValue none = JSVal.nan := by
  refine ⟨?_, rfl, rfl⟩
  have h1 : apcValue (some ⟨"$1,234.50".toList⟩) = parseFloatCore "1234.50".toList := rfl
  have h2 : parseFloatCore "1234.50".toList =
      JSVal.num (1 * ((natOfDigits "1234".toList : ℚ) +
        (natOfDigits "50".toList : ℚ) / (10 ^ ("50".toList).length))) := rfl
  have h3 : natOfDigits "1234".toList = 1234 := rfl
  have h4 : natOfDigits "50".toList = 50 := rfl
  have h5 : ("50".toList).length = 2 := rfl
  rw [h1, h2, h3, h4, h5]
  simp only [JSVal.num.injEq]
  norm_num

/-- Claim C9: subject-areas extraction returns the trimmed text of the
value cell of the first labeled row whose heading trims to exactly
`Subject areas`, returns the literal string `N/A` when no such heading
exists, and is exactly the `subject_areas` field of any successful
`parseInsightsPage` result. -/
theorem subject_areas_extraction : ∀ (divs : List RowDiv),
    (divs.find? subjAreaPred = none → subjectAreasValue divs = JSVal.str "N/A".toList) ∧
    (∀ d c, divs.find? subjAreaPred = some d → d.valueCell = some c →
      subjectAreasValue divs = JSVal.str (trimStr c.textContent)) ∧
    (∀ (doc : InsightsDoc) (r : InsightsData), parseInsightsPage doc = Except.ok r →
      r.subject_areas = subjectAreasValue doc.rowDivs) := by
  intro divs
  refine ⟨fun h => ?_, fun d c hd hc => ?_, fun doc r h => ?_⟩
  · simp [subjectAreasValue, h]
  · simp [subjectAreasValue, hd, hc]
  · simp only [parseInsightsPage, bind, Except.bind, pure, Except.pure] at h
    repeat' split at h
    all_goals cases h
    all_goals rfl

/-- A row list whose first row heading trims to `Subject areas`. -/
def subjRowList : List RowDiv :=
  [⟨some ⟨" Subject areas ".toList⟩, some ⟨" Chemistry, Physics ".toList⟩⟩]

/-- The result of `parseInsightsPage` on the empty document. -/
def emptyInsightsRecord : InsightsData :=
  { issn := JSVal.undefined, subject_areas := JSVal.str "N/A".toList,
    cite_score := JSVal.null, apc := JSVal.nan,
    time_to_first_decision := JSVal.null, review_time := JSVal.null,
    submission_to_acceptance := JSVal.null, acceptance_to_publication := JSVal.null,
    impact_factor := JSVal.null, acceptance_rate := JSVal.null,
    abstracting_indexing := JSVal.str [] }

/-- Witness for claim C9 at concrete inputs: no row yields the `N/A`
literal; a matching row yields the trimmed value-cell text; and the empty
page's parse carries exactly the subject-areas extraction. -/
theorem subject_areas_extraction_witness :
    subjectAreasValue [] = JSVal.str "N/A".toList ∧
    subjectAreasValue subjRowList = JSVal.str (trimStr " Chemistry, Physics ".toList) ∧
    emptyInsightsRecord.subject_areas = subjectAreasValue emptyInsightsDoc.rowDivs :=
  ⟨(subject_areas_extraction []).1 rfl,
   (subject_areas_extraction subjRowList).2.1
     ⟨some ⟨" Subject areas ".toList⟩, some ⟨" Chemistry, Physics ".toList⟩⟩
     ⟨" Chemistry, Physics ".toList⟩ rfl rfl,
   (subject_areas_extraction []).2.2 emptyInsightsDoc emptyInsightsRecord rfl⟩

/-! Claim about assembly with a failed sub-fetch. -/

/-- A concrete shop URL whose title extraction succeeds. -/
def c3shopUrl : List Char :=
  "https://shop.elsevier.com/journals/foo-journal/description".toList

/-- A successful aims-and-scope fetch with a populated section. -/
def c3aims : AimsFetch := ⟨true, ⟨some ⟨"  Scope text  ".toList⟩⟩⟩

/-- A failed insights fetch: the sentinel `ok = false` response whose
empty body parses to the empty document. -/
def failedInsights : InsightsFetch := ⟨false, emptyInsightsDoc⟩

/-- The record `scrapeJournalData` assembles from `c3shopUrl`, `c3aims`
and the failed insights fetch. -/
def c3record : JournalRecord :=
  { journal_title := "foo-journal".toList,
    aims_and_scope := JSVal.str "Scope text".toList,
    issn := JSVal.undefined, subject_areas := JSVal.str "N/A".toList,
    cite_score := JSVal.null, apc := JSVal.nan,
    time_to_first_decision := JSVal.null, review_time := JSVal.null,
    submission_to_acceptance := JSVal.null, acceptance_to_publication := JSVal.null,
    impact_factor := JSVal.null, acceptance_rate := JSVal.null,
    abstracting_indexing := JSVal.str [],
    shop_url := c3shopUrl,
    sciencedirect_url := buildScienceDirectUrl "foo-journal".toList "about/insights".toList }

/-- Counterexample to claim C3: with a failed insights fetch, assembly
succeeds but the failed sub-page does not contribute only `null` values —
`abstracting_indexing` is the empty string, `issn` is `undefined`,
`subject_areas` is the string `N/A` and `apc` is `NaN`. -/
theorem failed_subpage_not_all_null :
    scrapeJournalData c3shopUrl c3aims failedInsights = Except.ok c3record ∧
    c3record.abstracting_indexing = JSVal.str [] ∧
    c3record.issn = JSVal.undefined ∧
    c3record.subject_areas = JSVal.str "N/A".toList ∧
    c3record.apc = JSVal.nan ∧
    JSVal.str [] ≠ JSVal.null ∧ JSVal.undefined ≠ JSVal.null ∧
    JSVal.str "N/A".toList ≠ JSVal.null ∧ JSVal.nan ≠ JSVal.null := by
  exact ⟨rfl, rfl, rfl, rfl, rfl, by decide, by decide, by decide, by decide⟩

/-- Claim C3 as amended: when the insights fetch fails (sentinel response
with empty body), assembly still succeeds — unless title extraction failed
— and the insights sub-page contributes `null` for the seven metric
fields, but `issn` is `undefined`, `subject_areas` is the string `N/A`,
`apc` is `NaN` and `abstracting_indexing` is the empty string. A failed
aims-and-scope fetch contributes `null` for its field. -/
theorem failed_subpage_contribution :
    (∀ (u t : List Char) (aims : AimsFetch),
      extractJournalTitleFromUrl u = some t →
      scrapeJournalData u aims ⟨false, emptyInsightsDoc⟩ = Except.ok
        { journal_title := t, aims_and_scope := getAimsAndScope aims,
          issn := JSVal.undefined, subject_areas := JSVal.str "N/A".toList,
          cite_score := JSVal.null, apc := JSVal.nan,
          time_to_first_decision := JSVal.null, review_time := JSVal.null,
          submission_to_acceptance := JSVal.null,
          acceptance_to_publication := JSVal.null,
          impact_factor := JSVal.null, acceptance_rate := JSVal.null,
          abstracting_indexing := JSVal.str [],
          shop_url := u,
          sciencedirect_url := buildScienceDirectUrl t "about/insights".toList }) ∧
    (∀ d : AimsDoc, getAimsAndScope ⟨false, d⟩ = JSVal.null) := by
  constructor
  · intro u t aims h
    simp only [scrapeJournalData, h]
    rfl
  · intro d
    rfl

/-- Witness for claim C3 as amended, at the concrete inputs of the
counterexample. -/
theorem failed_subpage_contribution_witness :
    scrapeJournalData c3shopUrl c3aims ⟨false, emptyInsightsDoc⟩ = Except.ok
      { journal_title := "foo-journal".toList,
        aims_and_scope := getAimsAndScope c3aims,
        issn := JSVal.undefined, subject_areas := JSVal.str "N/A".toList,
        cite_score := JSVal.null, apc := JSVal.nan,
        time_to_first_decision := JSVal.null, review_time := JSVal.null,
        submission_to_acceptance := JSVal.null,
        acceptance_to_publication := JSVal.null,
        impact_factor := JSVal.null, acceptance_rate := JSVal.null,
        abstracting_indexing := JSVal.str [],
        shop_url := c3shopUrl,
        sciencedirect_url :=
          buildScienceDirectUrl "foo-journal".toList "about/insights".toList } ∧
    getAimsAndScope ⟨false, AimsDoc.mk (some ⟨"x".toList⟩)⟩ = JSVal.null :=
  ⟨failed_subpage_contribution.1 c3shopUrl "foo-journal".toList c3aims rfl,
   failed_subpage_contribution.2 (AimsDoc.mk (some ⟨"x".toList⟩))⟩

/-! Characterization of the regex title extraction. -/

/-- Nothing qualifies in the empty string. -/
theorem qualAt_nil (i : Nat) : qualAt [] i = false := by
  simp [qualAt]

/-- Shifting the start position by one steps to the tail. -/
theorem qualAt_succ (c : Char) (cs : List Char) (i : Nat) :
    qualAt (c :: cs) (i + 1) = qualAt cs i := by
  have h : i + 1 + journalsPat.length = (i + journalsPat.length) + 1 := by omega
  unfold qualAt
  rw [h, List.drop_succ_cons, List.drop_succ_cons]

/-- The per-position matcher fails exactly when the position does not
qualify. -/
theorem matchTitleAt_none_iff (s : List Char) :
    matchTitleAt s = none ↔ qualAt s 0 = false := by
  unfold matchTitleAt qualAt
  rw [List.drop_zero, Nat.zero_add]
  cases hsw : strStartsWith s journalsPat with
  | false => simp
  | true =>
    simp only [if_true, Bool.true_and]
    cases hd : s.drop journalsPat.length with
    | nil => simp
    | cons a l =>
      by_cases hc : a = '/'
      · simp [List.takeWhile_cons, hc]
      · simp [List.takeWhile_cons, hc]

/-- On a qualifying position the per-position matcher returns the greedy
capture. -/
theorem matchTitleAt_qual (s : List Char) (h : qualAt s 0 = true) :
    matchTitleAt s =
      some ((s.drop journalsPat.length).takeWhile (fun c => decide (c ≠ '/'))) := by
  unfold matchTitleAt
  unfold qualAt at h
  rw [List.drop_zero, Nat.zero_add] at h
  cases hsw : strStartsWith s journalsPat with
  | false => rw [hsw] at h; simp at h
  | true =>
    rw [hsw] at h
    simp only [Bool.true_and] at h
    cases hd : s.drop journalsPat.length with
    | nil => rw [hd] at h; simp at h
    | cons a l =>
      rw [hd] at h
      simp only [List.head?_cons] at h
      simp only [decide_eq_true_eq] at h
      simp [List.takeWhile_cons, h]

/-- The scan misses exactly when no position qualifies. -/
theorem scanForTitle_none_iff : ∀ s : List Char,
    scanForTitle s = none ↔ ∀ i, qualAt s i = false := by
  intro s
  induction s with
  | nil => simpa [scanForTitle] using fun i => qualAt_nil i
  | cons c cs ih =>
    cases hm : matchTitleAt (c :: cs) with
    | some t =>
      simp only [scanForTitle, hm]
      constructor
      · intro h; exact absurd h (by simp)
      · intro h
        have h0 := (matchTitleAt_none_iff (c :: cs)).mpr (h 0)
        rw [h0] at hm
        exact absurd hm (by simp)
    | none =>
      simp only [scanForTitle, hm]
      rw [ih]
      constructor
      · intro h i
        cases i with
        | zero => exact (matchTitleAt_none_iff (c :: cs)).mp hm
        | succ n => rw [qualAt_succ]; exact h n
      · intro h i
        rw [← qualAt_succ c cs i]
        exact h (i + 1)

/-- The scan returns the greedy capture at the first qualifying
position. -/
theorem scanForTitle_first_qual : ∀ (s : List Char) (i : Nat),
    qualAt s i = true → (∀ j, j < i → qualAt s j = false) →
    scanForTitle s =
      some ((s.drop (i + journalsPat.length)).takeWhile (fun c => decide (c ≠ '/'))) := by
  intro s
  induction s with
  | nil => intro i h _; rw [qualAt_nil] at h; exact absurd h (by simp)
  | cons c cs ih =>
    intro i h hmin
    cases i with
    | zero =>
      have hm := matchTitleAt_qual (c :: cs) h
      simp only [scanForTitle, hm, Nat.zero_add]
    | succ n =>
      have h0 : qualAt (c :: cs) 0 = false := hmin 0 (Nat.succ_pos n)
      have hm := (matchTitleAt_none_iff (c :: cs)).mpr h0
      simp only [scanForTitle, hm]
      have hq : qualAt cs n = true := by rw [← qualAt_succ c cs n]; exact h
      have hmin' : ∀ j, j < n → qualAt cs j = false := by
        intro j hj
        rw [← qualAt_succ c cs j]
        exact hmin (j + 1) (by omega)
      have hdrop : (c :: cs).drop (n + 1 + journalsPat.length) =
          cs.drop (n + journalsPat.length) := by
        have : n + 1 + journalsPat.length = (n + journalsPat.length) + 1 := by omega
        rw [this, List.drop_succ_cons]
      rw [ih n hq hmin', hdrop]

/-- Every element kept by `takeWhile` satisfies the predicate. -/
theorem takeWhile_all {α} (p : α → Bool) : ∀ (l : List α), ∀ a ∈ l.takeWhile p, p a = true := by
  intro l
  induction l with
  | nil => simp
  | cons x xs ih =>
    cases hp : p x with
    | true =>
      rw [List.takeWhile_cons_of_pos hp]
      intro a ha
      rcases List.mem_cons.mp ha with h | h
      · rw [h]; exact hp
      · exact ih a h
    | false => rw [List.takeWhile_cons_of_neg (by simp [hp])]; simp

/-- The first element dropped by `dropWhile` fails the predicate. -/
theorem head?_dropWhile_false {α} (p : α → Bool) : ∀ (l : List α) (a : α),
    (l.dropWhile p).head? = some a → p a = false := by
  intro l
  induction l with
  | nil => simp
  | cons x xs ih =>
    intro a ha
    cases hp : p x with
    | true =>
      rw [List.dropWhile_cons_of_pos hp] at ha
      exact ih a ha
    | false =>
      rw [List.dropWhile_cons_of_neg (by simp [hp])] at ha
      simp only [List.head?_cons, Option.some.injEq] at ha
      rw [← ha]
      exact hp

/-- Claim C10: `extractJournalTitleFromUrl` matches the substring
`journals/` anywhere in its input: it returns `null` exactly when no
occurrence of `journals/` is followed by a non-`/` character, and
otherwise returns the maximal run of non-`/` characters after the first
such occurrence — a nonempty run of non-`/` characters that is a prefix
of the remainder and is followed by nothing or by a `/`. -/
theorem extract_title_substring_semantics : ∀ s : List Char,
    (extractJournalTitleFromUrl s = none ↔ ∀ i, qualAt s i = false) ∧
    (∀ i, qualAt s i = true → (∀ j, j < i → qualAt s j = false) →
      extractJournalTitleFromUrl s =
        some ((s.drop (i + journalsPat.length)).takeWhile (fun c => decide (c ≠ '/'))) ∧
      (s.drop (i + journalsPat.length)).takeWhile (fun c => decide (c ≠ '/')) ≠ [] ∧
      (∀ c ∈ (s.drop (i + journalsPat.length)).takeWhile (fun c => decide (c ≠ '/')), c ≠ '/') ∧
      (s.drop (i + journalsPat.length)).takeWhile (fun c => decide (c ≠ '/')) ++
        (s.drop (i + journalsPat.length)).dropWhile (fun c => decide (c ≠ '/')) =
          s.drop (i + journalsPat.length) ∧
      (∀ c, ((s.drop (i + journalsPat.length)).dropWhile (fun c => decide (c ≠ '/'))).head? =
        some c → c = '/')) := by
  intro s
  refine ⟨scanForTitle_none_iff s, fun i h hmin => ?_⟩
  refine ⟨scanForTitle_first_qual s i h hmin, ?_, ?_,
    List.takeWhile_append_dropWhile _ _, ?_⟩
  · unfold qualAt at h
    cases hl : s.drop (i + journalsPat.length) with
    | nil => rw [hl] at h; simp at h
    | cons b l =>
      rw [hl] at h
      simp only [List.head?_cons, Bool.and_eq_true] at h
      have hb : ¬b = '/' := by simpa using h.2
      simp [List.takeWhile_cons, hb]
  · intro c hc
    have := takeWhile_all (fun c => decide (c ≠ '/')) (s.drop (i + journalsPat.length)) c hc
    simpa using this
  · intro c hc
    have := head?_dropWhile_false (fun c => decide (c ≠ '/')) (s.drop (i + journalsPat.length)) c hc
    simpa using this

/-- Witness for claim C10 at a concrete input: in a URL where
`journals/` occurs inside a query parameter and the first occurrence is
followed by `/`, the title is the maximal non-`/` run after the first
qualifying occurrence. -/
theorem extract_title_substring_semantics_witness :
    extractJournalTitleFromUrl "https://x.com/a?b=journals//journals/abc/q".toList =
      some (("https://x.com/a?b=journals//journals/abc/q".toList.drop
        (28 + journalsPat.length)).takeWhile (fun c => decide (c ≠ '/'))) :=
  ((extract_title_substring_semantics
      "https://x.com/a?b=journals//journals/abc/q".toList).2 28
    (by decide) (by decide)).1

/-- A pattern is a prefix of itself followed by anything. -/
theorem strStartsWith_append_self : ∀ (p rest : List Char),
    strStartsWith (p ++ rest) p = true := by
  intro p
  induction p with
  | nil => intro rest; cases rest <;> rfl
  | cons c cs ih => intro rest; simp [strStartsWith, ih]

/-- `takeWhile` passes over a block that satisfies the predicate
throughout. -/
theorem takeWhile_append_all {α} (p : α → Bool) : ∀ (l1 l2 : List α),
    (∀ a ∈ l1, p a = true) → (l1 ++ l2).takeWhile p = l1 ++ l2.takeWhile p := by
  intro l1
  induction l1 with
  | nil => simp
  | cons x xs ih =>
    intro l2 h
    have hx : p x = true := h x (List.mem_cons_self x xs)
    simp only [List.cons_append, List.takeWhile_cons, hx, if_true]
    rw [ih l2 (fun a ha => h a (List.mem_cons_of_mem x ha))]

/-- Claim C8: for a source URL with the path segment shape
`journals/<title>/...` — the qualifying occurrence being the first one —
title extraction returns exactly that `<title>` segment; the extraction
is a pure function (deterministic and idempotent); when no match exists
`scrapeJournalData` fails with the missing-title error; and the driver
loop lets that error abort only the failing journal, processing the
remaining journals unchanged. -/
theorem title_extraction_and_missing_title :
    (∀ (a t r : List Char), t ≠ [] → (∀ c ∈ t, c ≠ '/') →
      (∀ j, j < a.length → qualAt (a ++ journalsPat ++ t ++ '/' :: r) j = false) →
      extractJournalTitleFromUrl (a ++ journalsPat ++ t ++ '/' :: r) = some t) ∧
    (∀ u : List Char, extractJournalTitleFromUrl u = extractJournalTitleFromUrl u) ∧
    (∀ (u : List Char) (aims : AimsFetch) (ins : InsightsFetch),
      extractJournalTitleFromUrl u = none →
      scrapeJournalData u aims ins = Except.error ScrapeError.missingTitle) ∧
    (∀ (env : List Char → AimsFetch × InsightsFetch) (db : DB)
      (u : List Char) (us : List (List Char)),
      scrapeJournalData u (env u).1 (env u).2 = Except.error ScrapeError.missingTitle →
      processAll env db (u :: us) =
        ((processAll env db us).1, none :: (processAll env db us).2)) := by
  refine ⟨?_, fun u => rfl, ?_, ?_⟩
  · intro a t r ht hslash hmin
    have h2 : (a ++ journalsPat ++ t ++ '/' :: r).drop (a.length + journalsPat.length) =
        t ++ '/' :: r := by
      have he : a ++ journalsPat ++ t ++ '/' :: r =
          (a ++ journalsPat) ++ (t ++ '/' :: r) := by simp
      have hlen : a.length + journalsPat.length = (a ++ journalsPat).length := by simp
      rw [he, hlen, List.drop_left]
    have hq : qualAt (a ++ journalsPat ++ t ++ '/' :: r) a.length = true := by
      unfold qualAt
      have h1 : (a ++ journalsPat ++ t ++ '/' :: r).drop a.length =
          journalsPat ++ (t ++ '/' :: r) := by
        have he : a ++ journalsPat ++ t ++ '/' :: r =
            a ++ (journalsPat ++ (t ++ '/' :: r)) := by simp
        rw [he, List.drop_left]
      rw [h1, h2, strStartsWith_append_self]
      cases t with
      | nil => exact absurd rfl ht
      | cons c t' =>
        have hc : ¬c = '/' := hslash c (List.mem_cons_self c t')
        simp [hc]
    have hrun := scanForTitle_first_qual (a ++ journalsPat ++ t ++ '/' :: r) a.length hq hmin
    rw [extractJournalTitleFromUrl, hrun, h2]
    rw [takeWhile_append_all _ t ('/' :: r)
      (fun c hc => by simpa using hslash c hc)]
    simp [List.takeWhile_cons]
  · intro u aims ins h
    simp only [scrapeJournalData, h]
    rfl
  · intro env db u us h
    simp only [processAll, h]

/-- Witness for claim C8 at concrete inputs: extraction of `foo-journal`
from its shop URL, the missing-title error on a URL with no match, and
the driver skipping only that journal. -/
theorem title_extraction_and_missing_title_witness :
    extractJournalTitleFromUrl ("https://shop.elsevier.com/".toList ++ journalsPat ++
      "foo-journal".toList ++ '/' :: "description".toList) =
        some ("foo-journal".toList) ∧
    scrapeJournalData "https://x.com/nope".toList ⟨false, ⟨none⟩⟩
      ⟨false, emptyInsightsDoc⟩ = Except.error ScrapeError.missingTitle ∧
    processAll (fun _ => (⟨false, ⟨none⟩⟩, ⟨false, emptyInsightsDoc⟩)) ⟨[], 1⟩
        ["https://x.com/nope".toList] =
      ((processAll (fun _ => (⟨false, ⟨none⟩⟩, ⟨false, emptyInsightsDoc⟩)) ⟨[], 1⟩ []).1,
       none ::
        (processAll (fun _ => (⟨false, ⟨none⟩⟩, ⟨false, emptyInsightsDoc⟩)) ⟨[], 1⟩ []).2) :=
  ⟨title_extraction_and_missing_title.1 "https://shop.elsevier.com/".toList
      "foo-journal".toList "description".toList (by decide) (by decide) (by decide),
   title_extraction_and_missing_title.2.2.1 "https://x.com/nope".toList
      ⟨false, ⟨none⟩⟩ ⟨false, emptyInsightsDoc⟩ rfl,
   title_extraction_and_missing_title.2.2.2
      (fun _ => (⟨false, ⟨none⟩⟩, ⟨false, emptyInsightsDoc⟩)) ⟨[], 1⟩
      "https://x.com/nope".toList [] rfl⟩

end Scraper
